import Mathlib

/-!
# Verification of the QuickNX session broker against its specification

This file shallowly embeds the parts of the QuickNX code base (a Python
implementation of an NX 3.x session broker) that the specification talks
about, and proves or refutes the specification's claims about them.

Conventions of the embedding:

* Python strings are modelled as `List Char` (`String` at API borders).
  All characters handled by the modelled code are ASCII, where Python 2
  byte-string semantics and Lean `Char` semantics agree.
* Python exceptions are modelled with `Except`/`Option`; the exception
  objects that carry protocol data (code, message, fatal flag) are
  modelled as explicit structures.
* Machine integers do not occur: Python integers are unbounded, like
  `Nat`/`Int`.
-/

/-! ## Python primitives

Character classes used by the modelled regular expressions.  Python 2's
`\s` on byte strings is `[ \t\n\r\f\v]`, and `str.strip()` strips the
same six characters.  `[a-z]` under `re.I` is ASCII `[A-Za-z]`. -/

def pySpace (c : Char) : Bool :=
  c = ' ' || c = '\t' || c = '\n' || c = '\x0d' || c = '\x0c' || c = '\x0b'

def asciiAlpha (c : Char) : Bool :=
  ('a' ≤ c && c ≤ 'z') || ('A' ≤ c && c ≤ 'Z')

def asciiDigit (c : Char) : Bool :=
  '0' ≤ c && c ≤ '9'

/-- Value of a decimal digit character. -/
def digitVal (c : Char) : Nat := c.toNat - '0'.toNat

/-- Python `int(s)` restricted to non-empty strings of ASCII decimal
digits, the only shapes reaching `int` in the modelled code (the inputs
come from `\d+` regex groups or from version strings split on `".-"`).
Any other string raises `ValueError`, modelled as `none`. -/
def pyInt (cs : List Char) : Option Nat :=
  if cs ≠ [] && cs.all asciiDigit then
    some (cs.foldl (fun acc c => 10 * acc + digitVal c) 0)
  else
    none

/-- Python `str.strip()`: drop leading and trailing whitespace. -/
def pyStrip (cs : List Char) : List Char :=
  ((cs.dropWhile pySpace).reverse.dropWhile pySpace).reverse

/-! ## `lib/protocol.py`: NX protocol helpers -/

/-- `protocol.NX_TRUE` -/
def NX_TRUE : String := "1"

/-- `protocol.NX_FALSE` -/
def NX_FALSE : String := "0"

/-- `protocol.ParseNxBoolean`: `return value == NX_TRUE`. -/
def ParseNxBoolean (value : String) : Bool :=
  value = NX_TRUE

/-- `protocol.FormatNxBoolean`: `NX_TRUE` for true, else `NX_FALSE`. -/
def FormatNxBoolean (value : Bool) : String :=
  if value then NX_TRUE else NX_FALSE

/-- `protocol.ParseNxSize`: `int(value.rstrip("M"))`.  Modelled on the
digit-only strings (with optional trailing `M`s) that the protocol
carries. -/
def ParseNxSize (value : List Char) : Option Nat :=
  pyInt (value.reverse.dropWhile (· = 'M')).reverse

/-- `protocol.FormatNxSize`: `"%dM" % value`. -/
def FormatNxSize (value : Nat) : String :=
  toString value ++ "M"

/-- The data carried by `protocol.NxProtocolError` and its subclasses:
status code, message, fatal flag. -/
structure NxProtocolError where
  code : Nat
  msg : String
  fatal : Bool
deriving DecidableEq, Repr

/-- `protocol.NxParameterParsingError(params)`: code 597, non-fatal. -/
def NxParameterParsingError (params : String) : NxProtocolError :=
  { code := 597
    msg := "Error: Parsing parameters: string \x22" ++ params ++ "\x22 has invalid format"
    fatal := false }

/-- `protocol.NxUnsupportedProtocol`: code 500, fatal. -/
def NxUnsupportedProtocol : NxProtocolError :=
  { code := 500
    msg := "Protocol you requested is not supported, please upgrade your client to latest version"
    fatal := true }

/-! ## `protocol.ParseParameters`

The Python code repeatedly matches the anchored regular expression
`^\s*--(?P<name>[a-z][a-z0-9_-]*)="(?P<value>[^"]*)"\s*` (with `re.I`)
against the front of the working string (initially `params.strip()`),
collects the `(name, value)` groups, and drops the matched prefix; if a
non-empty remainder fails to match, it raises
`NxParameterParsingError(params)`.  The regular expression is
deterministic on every input (no character class contains `=` or `"`,
and whitespace never overlaps `-`), so it is modelled as a
straight-line parser. -/

/-- Character class `[a-z0-9_-]` under `re.I`. -/
def nameChar (c : Char) : Bool :=
  asciiAlpha c || asciiDigit c || c = '_' || c = '-'

/-- Reads the `[^"]*"` part: the value characters up to and including the
closing double quote. -/
def takeValue : List Char → Option (List Char × List Char)
  | [] => none
  | c :: rest =>
    if c = '\x22' then
      some ([], rest)
    else
      match takeValue rest with
      | some (v, r) => some (c :: v, r)
      | none => none

/-- The literal `--` at the front of the input. -/
def expectTwoDashes : List Char → Option (List Char)
  | '-' :: '-' :: r => some r
  | _ => none

/-- The `[a-z]` (with `re.I`) name-start character. -/
def matchNameStart : List Char → Option (Char × List Char)
  | c :: r => if asciiAlpha c then some (c, r) else none
  | [] => none

/-- The literal `="` between name and value. -/
def expectEqQuote : List Char → Option (List Char)
  | '=' :: '\x22' :: r => some r
  | _ => none

/-- One match of the parameter regular expression at the front of the
input: `\s*--NAME="VALUE"\s*`.  Returns the `(name, value)` groups and
the remainder after the match. -/
def matchParam (cs : List Char) : Option ((String × String) × List Char) := do
  let cs₂ ← expectTwoDashes (cs.dropWhile pySpace)
  let (c, cs₃) ← matchNameStart cs₂
  let nm := cs₃.takeWhile nameChar
  let cs₄ ← expectEqQuote (cs₃.dropWhile nameChar)
  let (v, cs₅) ← takeValue cs₄
  pure ((String.mk (c :: nm), String.mk v), cs₅.dropWhile pySpace)

theorem takeValue_length : ∀ {cs v r : List Char},
    takeValue cs = some (v, r) → r.length < cs.length := by
  intro cs
  induction cs with
  | nil => intro v r h; simp [takeValue] at h
  | cons c rest ih =>
    intro v r h
    unfold takeValue at h
    split at h
    · simp only [Option.some.injEq, Prod.mk.injEq] at h
      rcases h with ⟨h1, h2⟩
      subst h2
      exact Nat.lt_succ_self _
    · revert h
      match hv : takeValue rest with
      | some (v', r') =>
        intro h
        simp only [Option.some.injEq, Prod.mk.injEq] at h
        rcases h with ⟨h1, h2⟩
        subst h2
        have := ih hv
        simp only [List.length_cons]
        omega
      | none => intro h; simp at h

theorem expectTwoDashes_length {cs r : List Char} (h : expectTwoDashes cs = some r) :
    r.length + 2 = cs.length := by
  unfold expectTwoDashes at h
  split at h
  · simp only [Option.some.injEq] at h
    subst h
    simp
  · simp at h

theorem matchNameStart_length {cs r : List Char} {c : Char}
    (h : matchNameStart cs = some (c, r)) : r.length + 1 = cs.length := by
  unfold matchNameStart at h
  split at h
  · split at h
    · simp only [Option.some.injEq, Prod.mk.injEq] at h
      rcases h with ⟨h1, h2⟩
      subst h2
      simp
    · simp at h
  · simp at h

theorem expectEqQuote_length {cs r : List Char} (h : expectEqQuote cs = some r) :
    r.length + 2 = cs.length := by
  unfold expectEqQuote at h
  split at h
  · simp only [Option.some.injEq] at h
    subst h
    simp
  · simp at h

theorem dropWhile_length_le (p : Char → Bool) (cs : List Char) :
    (cs.dropWhile p).length ≤ cs.length :=
  (List.dropWhile_sublist _).length_le

theorem matchParam_length {cs : List Char} {p : String × String} {r : List Char}
    (h : matchParam cs = some (p, r)) : r.length < cs.length := by
  unfold matchParam at h
  simp only [Option.bind_eq_bind, Option.bind_eq_some, Option.pure_def,
    Option.some.injEq, Prod.exists, Prod.mk.injEq] at h
  obtain ⟨cs₂, h2, c, cs₃, h3, cs₄, h4, v, cs₅, h5, _, h6⟩ := h
  have l0 := dropWhile_length_le pySpace cs
  have l2 := expectTwoDashes_length h2
  have l3 := matchNameStart_length h3
  have l3' := dropWhile_length_le nameChar cs₃
  have l4 := expectEqQuote_length h4
  have l5 := takeValue_length h5
  have l6 := dropWhile_length_le pySpace cs₅
  subst h6
  omega

/-- The matching loop of `protocol.ParseParameters`: match parameters at
the front of the working string until it is empty; a non-empty remainder
that does not match the regular expression is a parse failure
(`none`). -/
def MatchParams (cs : List Char) : Option (List (String × String)) :=
  if cs = [] then
    some []
  else
    match hm : matchParam cs with
    | some (p, rest) => (MatchParams rest).map (fun ps => p :: ps)
    | none => none
termination_by cs.length
decreasing_by exact matchParam_length hm

/-- `protocol.ParseParameters`: strip the parameter string, run the
matching loop, and on failure raise `NxParameterParsingError(params)`
(code 597). -/
def ParseParameters (params : String) :
    Except NxProtocolError (List (String × String)) :=
  match MatchParams (pyStrip params.data) with
  | some ps => .ok ps
  | none => .error (NxParameterParsingError params)

/-- The parameter grammar exactly as the specification writes it:
`params := (WS* "--" NAME "=" '"' VALUE '"' WS*)*` with
`NAME := [A-Za-z][A-Za-z0-9_-]*` and `VALUE` any characters except `"`,
together with the `(name, value)` pairs it produces in input order.
This definition follows the specification's words, to be compared with
`ParseParameters`, which is translated from the code. -/
inductive InGrammar : List Char → List (String × String) → Prop
  | nil : InGrammar [] []
  | item (w₁ : List Char) (c : Char) (t v w₂ rest : List Char)
      (ps : List (String × String)) :
      (∀ x ∈ w₁, pySpace x = true) →
      asciiAlpha c = true →
      (∀ x ∈ t, nameChar x = true) →
      (∀ x ∈ v, x ≠ '\x22') →
      (∀ x ∈ w₂, pySpace x = true) →
      InGrammar rest ps →
      InGrammar
        (w₁ ++ '-' :: '-' :: c :: t ++ '=' :: '\x22' :: v ++ '\x22' :: w₂ ++ rest)
        ((String.mk (c :: t), String.mk v) :: ps)

theorem dropWhile_append_all {p : Char → Bool} {w l : List Char}
    (hw : ∀ x ∈ w, p x = true) : (w ++ l).dropWhile p = l.dropWhile p := by
  induction w with
  | nil => simp
  | cons a w ih =>
    have ha : p a = true := hw a (by simp)
    simp only [List.cons_append, List.dropWhile_cons, ha, if_true]
    exact ih (fun x hx => hw x (by simp [hx]))

theorem takeWhile_run {p : Char → Bool} {t l : List Char} {a : Char}
    (ht : ∀ x ∈ t, p x = true) (ha : p a = false) :
    (t ++ a :: l).takeWhile p = t ∧ (t ++ a :: l).dropWhile p = a :: l := by
  induction t with
  | nil => simp [List.takeWhile_cons, List.dropWhile_cons, ha]
  | cons b t ih =>
    have hb : p b = true := ht b (by simp)
    have := ih (fun x hx => ht x (by simp [hx]))
    simp only [List.cons_append, List.takeWhile_cons, List.dropWhile_cons, hb,
      if_true, this.1, this.2, and_self]

theorem takeValue_append {v r : List Char} (hv : ∀ x ∈ v, x ≠ '\x22') :
    takeValue (v ++ '\x22' :: r) = some (v, r) := by
  induction v with
  | nil => simp [takeValue]
  | cons c v ih =>
    have hc : ¬(c = '\x22') := hv c (by simp)
    have ih' := ih (fun x hx => hv x (by simp [hx]))
    simp only [List.cons_append, takeValue, if_neg hc, List.append_eq]
    rw [ih']

theorem takeValue_sound : ∀ {cs v r : List Char}, takeValue cs = some (v, r) →
    cs = v ++ '\x22' :: r ∧ ∀ x ∈ v, x ≠ '\x22' := by
  intro cs
  induction cs with
  | nil => intro v r h; simp [takeValue] at h
  | cons c rest ih =>
    intro v r h
    unfold takeValue at h
    split at h
    · rename_i hc
      simp only [Option.some.injEq, Prod.mk.injEq] at h
      rcases h with ⟨h1, h2⟩
      subst h1; subst h2; subst hc
      simp
    · rename_i hc
      revert h
      match hv : takeValue rest with
      | some (v', r') =>
        intro h
        simp only [Option.some.injEq, Prod.mk.injEq] at h
        rcases h with ⟨h1, h2⟩
        subst h1; subst h2
        obtain ⟨he, hall⟩ := ih hv
        refine ⟨by simp [he], ?_⟩
        intro x hx
        rcases List.mem_cons.mp hx with hx | hx
        · subst hx; exact hc
        · exact hall x hx
      | none => intro h; simp at h

theorem expectTwoDashes_sound {cs r : List Char} (h : expectTwoDashes cs = some r) :
    cs = '-' :: '-' :: r := by
  unfold expectTwoDashes at h
  split at h
  · simp only [Option.some.injEq] at h
    subst h
    rfl
  · simp at h

theorem matchNameStart_sound {cs r : List Char} {c : Char}
    (h : matchNameStart cs = some (c, r)) : cs = c :: r ∧ asciiAlpha c = true := by
  unfold matchNameStart at h
  split at h
  · split at h
    · rename_i ha
      simp only [Option.some.injEq, Prod.mk.injEq] at h
      rcases h with ⟨h1, h2⟩
      subst h1; subst h2
      exact ⟨rfl, ha⟩
    · simp at h
  · simp at h

theorem expectEqQuote_sound {cs r : List Char} (h : expectEqQuote cs = some r) :
    cs = '=' :: '\x22' :: r := by
  unfold expectEqQuote at h
  split at h
  · simp only [Option.some.injEq] at h
    subst h
    rfl
  · simp at h

theorem pySpace_dash : pySpace '-' = false := rfl

theorem nameChar_eq : nameChar '=' = false := rfl

/-- Completeness of one regex match: on a well-formed parameter item the
match succeeds and returns the name and value groups. -/
theorem matchParam_complete {w₁ : List Char} {c : Char} {t v tail : List Char}
    (hw₁ : ∀ x ∈ w₁, pySpace x = true) (hc : asciiAlpha c = true)
    (ht : ∀ x ∈ t, nameChar x = true) (hv : ∀ x ∈ v, x ≠ '\x22') :
    matchParam (w₁ ++ '-' :: '-' :: c :: (t ++ '=' :: '\x22' :: (v ++ '\x22' :: tail))) =
      some ((String.mk (c :: t), String.mk v), tail.dropWhile pySpace) := by
  have hname := takeWhile_run (l := '\x22' :: (v ++ '\x22' :: tail)) ht nameChar_eq
  unfold matchParam
  rw [dropWhile_append_all hw₁]
  simp only [List.dropWhile_cons, pySpace_dash, Bool.false_eq_true, if_false]
  simp only [expectTwoDashes, matchNameStart, hc, if_true, Option.some_bind,
    hname.1, hname.2, expectEqQuote, takeValue_append hv, Option.some_bind,
    Option.bind_eq_bind, Option.pure_def]

/-- Soundness of one regex match: a successful match decomposes the
input into whitespace, the `--name="value"` body and a remainder, with
the trailing whitespace of the match folded into the remainder. -/
theorem matchParam_sound {cs : List Char} {nmS vS : String} {r : List Char}
    (h : matchParam cs = some ((nmS, vS), r)) :
    ∃ (w₁ : List Char) (c : Char) (t v tail : List Char),
      cs = w₁ ++ '-' :: '-' :: c :: (t ++ '=' :: '\x22' :: (v ++ '\x22' :: tail)) ∧
      (∀ x ∈ w₁, pySpace x = true) ∧ asciiAlpha c = true ∧
      (∀ x ∈ t, nameChar x = true) ∧ (∀ x ∈ v, x ≠ '\x22') ∧
      nmS = String.mk (c :: t) ∧ vS = String.mk v ∧ r = tail.dropWhile pySpace := by
  unfold matchParam at h
  simp only [Option.bind_eq_bind, Option.bind_eq_some, Option.pure_def,
    Option.some.injEq, Prod.exists, Prod.mk.injEq] at h
  obtain ⟨cs₂, h2, c, cs₃, h3, cs₄, h4, v, cs₅, h5, ⟨hnm, hvv⟩, hr⟩ := h
  have e2 := expectTwoDashes_sound h2
  obtain ⟨e3, hc⟩ := matchNameStart_sound h3
  have e4 := expectEqQuote_sound h4
  obtain ⟨e5, hv⟩ := takeValue_sound h5
  refine ⟨cs.takeWhile pySpace, c, cs₃.takeWhile nameChar, v, cs₅, ?_, ?_, hc, ?_,
    hv, hnm.symm, hvv.symm, hr.symm⟩
  · conv_lhs => rw [(List.takeWhile_append_dropWhile pySpace cs).symm]
    rw [e2, e3]
    congr 2
    conv_lhs => rw [(List.takeWhile_append_dropWhile nameChar cs₃).symm]
    rw [e4, e5]
  · intro x hx
    exact List.mem_takeWhile_imp hx
  · intro x hx
    exact List.mem_takeWhile_imp hx

theorem MatchParams_nil : MatchParams [] = some [] := by
  unfold MatchParams
  simp

theorem MatchParams_ne_nil {cs : List Char} (h : cs ≠ []) :
    MatchParams cs = match matchParam cs with
      | some (p, rest) => (MatchParams rest).map (fun ps => p :: ps)
      | none => none := by
  conv_lhs => unfold MatchParams
  simp only [h, if_false]
  split
  · rename_i p rest heq
    rw [heq]
  · rename_i heq
    rw [heq]

theorem MatchParams_step_some {cs rest : List Char} {p : String × String}
    (h : cs ≠ []) (hm : matchParam cs = some (p, rest)) :
    MatchParams cs = (MatchParams rest).map (fun ps => p :: ps) := by
  rw [MatchParams_ne_nil h, hm]

theorem MatchParams_step_none {cs : List Char} (h : cs ≠ [])
    (hm : matchParam cs = none) : MatchParams cs = none := by
  rw [MatchParams_ne_nil h, hm]

/-- The working string at the head of the matching loop never changes
when pre-stripped: the regular expression itself starts with `\s*`. -/
theorem matchParam_dropWhile (cs : List Char) :
    matchParam (cs.dropWhile pySpace) = matchParam cs := by
  conv_lhs => unfold matchParam
  conv_rhs => unfold matchParam
  rw [List.dropWhile_idempotent]

theorem InGrammar_nil_inv {cs : List Char} {ps : List (String × String)}
    (h : InGrammar cs ps) (hn : cs = []) : ps = [] := by
  cases h with
  | nil => rfl
  | item w₁ c t v w₂ rest ps hw₁ hc ht hv hw₂ hrest => simp at hn

theorem InGrammar_dropWhile_ne_nil {cs : List Char} {ps : List (String × String)}
    (h : InGrammar cs ps) (hn : cs ≠ []) : List.dropWhile pySpace cs ≠ [] := by
  cases h with
  | nil => exact absurd rfl hn
  | item w₁ c t v w₂ rest ps hw₁ hc ht hv hw₂ hrest =>
    simp only [List.append_assoc, List.cons_append]
    rw [dropWhile_append_all hw₁]
    simp [List.dropWhile_cons, pySpace_dash]

/-- Every string generated by the specification's grammar is accepted by
the code's matching loop with the same pairs, and whitespace stripping
does not change the result on grammar strings. -/
theorem InGrammar_MatchParams {cs : List Char} {ps : List (String × String)}
    (h : InGrammar cs ps) :
    MatchParams cs = some ps ∧ MatchParams (cs.dropWhile pySpace) = some ps := by
  induction h with
  | nil => simp [MatchParams_nil]
  | item w₁ c t v w₂ rest ps hw₁ hc ht hv hw₂ hrest ih =>
    have hmp := @matchParam_complete w₁ c t v (w₂ ++ rest) hw₁ hc ht hv
    have hword :
        w₁ ++ '-' :: '-' :: c :: t ++ '=' :: '\x22' :: v ++ '\x22' :: w₂ ++ rest =
          w₁ ++ '-' :: '-' :: c :: (t ++ '=' :: '\x22' :: (v ++ '\x22' :: (w₂ ++ rest))) := by
      simp
    have hdropin : List.dropWhile pySpace (w₂ ++ rest) = List.dropWhile pySpace rest :=
      dropWhile_append_all hw₂
    have htail : MatchParams (List.dropWhile pySpace (w₂ ++ rest)) = some ps := by
      rw [hdropin]
      by_cases hrnil : rest = []
      · have hpsnil := InGrammar_nil_inv hrest hrnil
        subst hpsnil
        subst hrnil
        simp [MatchParams_nil]
      · rcases ih with ⟨ih₁, -⟩
        have hne := InGrammar_dropWhile_ne_nil hrest hrnil
        rw [MatchParams_ne_nil hne, matchParam_dropWhile]
        rw [MatchParams_ne_nil hrnil] at ih₁
        exact ih₁
    constructor
    · rw [hword]
      have hne :
          w₁ ++ '-' :: '-' :: c :: (t ++ '=' :: '\x22' :: (v ++ '\x22' :: (w₂ ++ rest))) ≠ [] := by
        simp
      rw [MatchParams_ne_nil hne, hmp]
      simp [htail]
    · rw [hword]
      have hstr : List.dropWhile pySpace
          (w₁ ++ '-' :: '-' :: c :: (t ++ '=' :: '\x22' :: (v ++ '\x22' :: (w₂ ++ rest)))) =
          '-' :: '-' :: c :: (t ++ '=' :: '\x22' :: (v ++ '\x22' :: (w₂ ++ rest))) := by
        rw [dropWhile_append_all hw₁]
        simp [List.dropWhile_cons, pySpace_dash]
      rw [hstr]
      have hne :
          ('-' : Char) :: '-' :: c :: (t ++ '=' :: '\x22' :: (v ++ '\x22' :: (w₂ ++ rest))) ≠ [] := by
        simp
      rw [MatchParams_ne_nil hne]
      have hmp' : matchParam ('-' :: '-' :: c :: (t ++ '=' :: '\x22' :: (v ++ '\x22' :: (w₂ ++ rest)))) =
          some ((String.mk (c :: t), String.mk v), List.dropWhile pySpace (w₂ ++ rest)) := by
        have h0 := @matchParam_complete [] c t v (w₂ ++ rest) (by simp) hc ht hv
        simpa using h0
      rw [hmp']
      simp [htail]

/-- Every string accepted by the code's matching loop is generated by
the specification's grammar, with the same pairs. -/
theorem MatchParams_InGrammar {cs : List Char} {ps : List (String × String)}
    (h : MatchParams cs = some ps) : InGrammar cs ps := by
  by_cases hnil : cs = []
  · subst hnil
    rw [MatchParams_nil] at h
    simp only [Option.some.injEq] at h
    subst h
    exact InGrammar.nil
  · rw [MatchParams_ne_nil hnil] at h
    revert h
    match hm : matchParam cs with
    | none => intro h; simp at h
    | some ((nmS, vS), rest) =>
      intro h
      have h' : Option.map (fun ps => (nmS, vS) :: ps) (MatchParams rest) = some ps := h
      cases htl : MatchParams rest with
      | none => rw [htl] at h'; simp at h'
      | some tl =>
        rw [htl] at h'
        simp only [Option.map_some', Option.some.injEq] at h'
        have hlen : rest.length < cs.length := matchParam_length hm
        obtain ⟨w₁, c, t, v, tail, hcs, hw₁, hc, ht, hv, hnm, hvv, hrest⟩ :=
          matchParam_sound hm
        have htail_split := List.takeWhile_append_dropWhile pySpace tail
        have ihg : InGrammar rest tl := MatchParams_InGrammar htl
        subst hnm hvv
        subst h'
        rw [hcs]
        have hshape :
            w₁ ++ '-' :: '-' :: c :: (t ++ '=' :: '\x22' :: (v ++ '\x22' :: tail)) =
            w₁ ++ '-' :: '-' :: c :: t ++ '=' :: '\x22' :: v ++
              '\x22' :: (tail.takeWhile pySpace) ++ rest := by
          subst hrest
          simp [htail_split]
        rw [hshape]
        exact InGrammar.item w₁ c t v (tail.takeWhile pySpace) rest tl hw₁ hc ht hv
          (fun x hx => List.mem_takeWhile_imp hx) ihg
termination_by cs.length
decreasing_by exact hlen

theorem InGrammar_dash_mem {cs : List Char} {ps : List (String × String)}
    (h : InGrammar cs ps) (hn : cs ≠ []) : '-' ∈ cs := by
  cases h with
  | nil => exact absurd rfl hn
  | item w₁ c t v w₂ rest ps hw₁ hc ht hv hw₂ hrest => simp

theorem ParseParameters_eq_ok_iff {s : String} {ps : List (String × String)} :
    ParseParameters s = .ok ps ↔ MatchParams (pyStrip s.data) = some ps := by
  unfold ParseParameters
  split
  · rename_i qs heq
    rw [heq]
    simp
  · rename_i heq
    rw [heq]
    simp

theorem ParseParameters_eq_error {s : String}
    (h : MatchParams (pyStrip s.data) = none) :
    ParseParameters s = .error (NxParameterParsingError s) := by
  unfold ParseParameters
  rw [h]

/-- **C1 (amended).** `ParseParameters` accepts a parameter string exactly
when the string, after stripping surrounding whitespace (which the code
does first), matches the grammar
`params := (WS* "--" NAME "=" '"' VALUE '"' WS*)*` with
`NAME := [A-Za-z][A-Za-z0-9_-]*` and `VALUE` any characters except `"`,
and then returns the `(name, value)` pairs in input order; on every
other string it raises the parameter-parsing protocol error carrying
code 597. -/
theorem C1_parse_parameters_grammar (s : String) (ps : List (String × String)) :
    (ParseParameters s = .ok ps ↔ InGrammar (pyStrip s.data) ps) ∧
    ((∀ qs, ¬ InGrammar (pyStrip s.data) qs) →
      ParseParameters s = .error (NxParameterParsingError s) ∧
      (NxParameterParsingError s).code = 597) := by
  constructor
  · rw [ParseParameters_eq_ok_iff]
    constructor
    · exact MatchParams_InGrammar
    · intro hg
      exact (InGrammar_MatchParams hg).1
  · intro hnone
    have hm : MatchParams (pyStrip s.data) = none := by
      cases hmv : MatchParams (pyStrip s.data) with
      | none => rfl
      | some qs => exact absurd (MatchParams_InGrammar hmv) (hnone qs)
    exact ⟨ParseParameters_eq_error hm, rfl⟩

/-- Witness for C1: the string `"x"` matches no production of the
grammar, and `ParseParameters` rejects it with code 597. -/
theorem C1_parse_parameters_grammar_witness :
    ParseParameters "x" = .error (NxParameterParsingError "x") ∧
    (NxParameterParsingError "x").code = 597 :=
  (C1_parse_parameters_grammar "x" []).2 (fun qs hq =>
    absurd (InGrammar_dash_mem hq (by decide)) (by decide))

/-- **C1 counterexample.** The claim demands that every string outside
the grammar fail with code 597, but the single-space string `" "` is not
generated by the grammar (every non-empty grammar word contains `-`)
while `ParseParameters` accepts it, returning no pairs. -/
theorem C1_counterexample :
    ParseParameters " " = .ok [] ∧ (" ".data ≠ []) ∧
    ∀ ps, ¬ InGrammar (" ".data) ps := by
  refine ⟨?_, by decide, ?_⟩
  · unfold ParseParameters
    have h1 : pyStrip (" ".data) = [] := by decide
    rw [h1, MatchParams_nil]
  · intro ps hg
    exact absurd (InGrammar_dash_mem hg (by decide)) (by decide)

/-- **C10.** `ParseNxBoolean` returns true exactly on the one-character
string `"1"`; every other string (including `"true"`, `"TRUE"`, `"yes"`)
parses to false without raising an error, and formatting then parsing a
boolean is the identity. -/
theorem C10_parse_nx_boolean :
    (∀ v : String, ParseNxBoolean v = true ↔ v = "1") ∧
    (ParseNxBoolean "true" = false ∧ ParseNxBoolean "TRUE" = false ∧
      ParseNxBoolean "yes" = false) ∧
    (∀ b : Bool, ParseNxBoolean (FormatNxBoolean b) = b) := by
  refine ⟨?_, by decide, ?_⟩
  · intro v
    simp [ParseNxBoolean, NX_TRUE]
  · intro b
    cases b <;> decide

/-! ## `neatx/lib/utils.py`: version parsing and formatting

`_GetVersionSplitter(sep, count)` splits on any character of `sep`
(`re.split("[%s]" % re.escape(sep), ver, count)`) and keeps the first
`count` parts; `ParseVersion` converts the parts to one number using a
digit budget per part; `FormatVersion` is the reverse. -/

/-- `re.split` on a character class with a maximum number of splits:
after `maxsplit` splits the remainder stays one piece. -/
def pySplit (seps : List Char) : Nat → List Char → List (List Char)
  | 0, cs => [cs]
  | m + 1, cs =>
    let pre := cs.takeWhile (fun c => !seps.contains c)
    match cs.dropWhile (fun c => !seps.contains c) with
    | [] => [pre]
    | _ :: tail => pre :: pySplit seps m tail

/-- `_GetVersionSplitter(sep, count)` applied to a version string. -/
def versionParts (sep : List Char) (count : Nat) (ver : List Char) : List (List Char) :=
  (pySplit sep count ver).take count

/-- `utils.ParseVersion(version, sep, digits)`: parts are read in
reverse, each scaled by the digit budget seen so far; a missing part
counts as 0 (`IndexError` branch), a non-numeric part or a part whose
value exceeds `10**exp` raises `ValueError` (`none`). -/
def ParseVersion (version sep : List Char) (digits : List Nat) : Option Nat :=
  let parts := versionParts sep digits.length version
  let step := fun (st : Option (Nat × Nat)) (ie : Nat × Nat) =>
    match st with
    | none => none
    | some (ver, texp) =>
      match parts.get? ie.1 with
      | none => some (ver, texp + ie.2)
      | some p =>
        match pyInt p with
        | none => none
        | some value =>
          if value > 10 ^ ie.2 then none
          else some (ver + 10 ^ texp * value, texp + ie.2)
  ((digits.enum.reverse).foldl step (some (0, 0))).map Prod.fst

/-- `utils.FormatVersion(version, sep, digits)`: `divmod` the number by
each digit budget from the least significant part up; a remainder left
over raises `ValueError` (`none`). -/
def FormatVersion (version : Nat) (sep : String) (digits : List Nat) : Option String :=
  let st := digits.reverse.foldl
    (fun (st : Nat × List String) exp =>
      (st.1 / 10 ^ exp, st.2 ++ [toString (st.1 % 10 ^ exp)]))
    (version, [])
  if st.1 > 0 then none
  else some (String.intercalate sep st.2.reverse)

/-- **C8.** With digit budget `[2, 2, 4]`: parsing `"3.3.2"` on `"."`
and formatting the result reproduces `"3.3.2"`, and parsing `"3.2.0-6"`
on separators `".-"` yields 3020000. -/
theorem C8_version_codec :
    (ParseVersion ("3.3.2".data) (".".data) [2, 2, 4]).bind
        (fun n => FormatVersion n "." [2, 2, 4]) = some "3.3.2" ∧
    ParseVersion ("3.2.0-6".data) (".-".data) [2, 2, 4] = some 3020000 := by
  constructor
  · rfl
  · rfl

/-! ## `neatx/lib/app/nxserver_login.py`: the `hello` command

`RE_PROTOCOL = ^nxclient\s+-\s+version\s+(?P<ver>[\d.]+)\s*$` (`re.I`),
again deterministic (no character class overlaps whitespace), modelled
as a straight-line matcher. -/

/-- Character class `[\d.]`. -/
def verChar (c : Char) : Bool := asciiDigit c || c = '.'

/-- ASCII lower-casing, the effect of `re.I` on literal words. -/
def lowerChar (c : Char) : Char :=
  if 'A' ≤ c && c ≤ 'Z' then Char.ofNat (c.toNat + 32) else c

/-- Case-insensitive literal at the front of the input. -/
def matchCI : List Char → List Char → Option (List Char)
  | [], cs => some cs
  | _ :: _, [] => none
  | l :: ls, c :: cs => if lowerChar c = l then matchCI ls cs else none

/-- `\s+`: at least one whitespace character, then any run. -/
def matchWs1 : List Char → Option (List Char)
  | [] => none
  | c :: cs => if pySpace c then some (cs.dropWhile pySpace) else none

/-- The literal `-` between the client name and `version`. -/
def matchDash : List Char → Option (List Char)
  | '-' :: t => some t
  | _ => none

/-- The full `RE_PROTOCOL` match, returning the `ver` group. -/
def matchHello (args : List Char) : Option (List Char) := do
  let r1 ← matchCI ("nxclient".data) args
  let r2 ← matchWs1 r1
  let r3 ← matchDash r2
  let r4 ← matchWs1 r3
  let r5 ← matchCI ("version".data) r4
  let r6 ← matchWs1 r5
  let ver := r6.takeWhile verChar
  if ver = [] then none
  else if (r6.dropWhile verChar).all pySpace then some ver else none

/-- `constants.PROTOCOL_VERSION_DIGITS` -/
def PROTOCOL_VERSION_DIGITS : List Nat := [2, 2, 4]

/-- `LoginCommandHandler._Hello(args)` against a configured protocol
version number (`cfg.nx_protocol_version`, itself a `ParseVersion`
result): an unmatched argument string, an unparsable version or a
version other than the configured one raise `NxUnsupportedProtocol`
(code 500, fatal); otherwise the server writes code 134 with
`Accepted protocol: <ver>`. -/
def Hello (args : String) (cfgVer : Nat) : Except NxProtocolError (Nat × String) :=
  (matchHello args.data).elim (.error NxUnsupportedProtocol) fun ver =>
    (ParseVersion ver ('.' :: '-' :: []) PROTOCOL_VERSION_DIGITS).elim
      (.error NxUnsupportedProtocol) fun pv =>
        if pv ≠ cfgVer then .error NxUnsupportedProtocol
        else .ok (134, "Accepted protocol: " ++ String.mk ver)

theorem verChar_not_pySpace {c : Char} (h : verChar c = true) : pySpace c = false := by
  have h' : asciiDigit c = true ∨ c = '.' := by simpa [verChar] using h
  rcases h' with hd | hdot
  · have hd' : '0' ≤ c ∧ c ≤ '9' := by simpa [asciiDigit] using hd
    obtain ⟨h1, h2⟩ := hd'
    simp only [pySpace, Bool.or_eq_false_iff, decide_eq_false_iff_not]
    refine ⟨⟨⟨⟨⟨?_, ?_⟩, ?_⟩, ?_⟩, ?_⟩, ?_⟩ <;>
      (intro heq; subst heq; revert h1 h2; decide)
  · subst hdot
    decide

theorem matchHello_version {cd : List Char} (hne : cd ≠ [])
    (hv : ∀ c ∈ cd, verChar c = true) :
    matchHello ("nxclient - version ".data ++ cd) = some cd := by
  obtain ⟨c, t, rfl⟩ := List.exists_cons_of_ne_nil hne
  have hc : verChar c = true := hv c (by simp)
  have hcsp : pySpace c = false := verChar_not_pySpace hc
  have hdrop : List.dropWhile pySpace (c :: t) = c :: t := by
    simp [List.dropWhile_cons, hcsp]
  have htake : List.takeWhile verChar (c :: t) = c :: t :=
    List.takeWhile_eq_self_iff.mpr hv
  have hdropv : List.dropWhile verChar (c :: t) = [] :=
    List.dropWhile_eq_nil_iff.mpr hv
  show matchHello
      ('n' :: 'x' :: 'c' :: 'l' :: 'i' :: 'e' :: 'n' :: 't' :: ' ' :: '-' :: ' ' ::
        'v' :: 'e' :: 'r' :: 's' :: 'i' :: 'o' :: 'n' :: ' ' :: (c :: t)) = some (c :: t)
  have h1 : matchCI ("nxclient".data)
      ('n' :: 'x' :: 'c' :: 'l' :: 'i' :: 'e' :: 'n' :: 't' :: ' ' :: '-' :: ' ' ::
        'v' :: 'e' :: 'r' :: 's' :: 'i' :: 'o' :: 'n' :: ' ' :: c :: t) =
      some (' ' :: '-' :: ' ' :: 'v' :: 'e' :: 'r' :: 's' :: 'i' :: 'o' :: 'n' :: ' ' :: c :: t) := rfl
  have h2 : matchWs1 (' ' :: '-' :: ' ' :: 'v' :: 'e' :: 'r' :: 's' :: 'i' :: 'o' :: 'n' :: ' ' :: c :: t) =
      some ('-' :: ' ' :: 'v' :: 'e' :: 'r' :: 's' :: 'i' :: 'o' :: 'n' :: ' ' :: c :: t) := rfl
  have h3 : matchDash ('-' :: ' ' :: 'v' :: 'e' :: 'r' :: 's' :: 'i' :: 'o' :: 'n' :: ' ' :: c :: t) =
      some (' ' :: 'v' :: 'e' :: 'r' :: 's' :: 'i' :: 'o' :: 'n' :: ' ' :: c :: t) := rfl
  have h4 : matchWs1 (' ' :: 'v' :: 'e' :: 'r' :: 's' :: 'i' :: 'o' :: 'n' :: ' ' :: c :: t) =
      some ('v' :: 'e' :: 'r' :: 's' :: 'i' :: 'o' :: 'n' :: ' ' :: c :: t) := rfl
  have h5 : matchCI ("version".data) ('v' :: 'e' :: 'r' :: 's' :: 'i' :: 'o' :: 'n' :: ' ' :: c :: t) =
      some (' ' :: c :: t) := rfl
  have h6 : matchWs1 (' ' :: c :: t) = some (List.dropWhile pySpace (c :: t)) := rfl
  unfold matchHello
  simp only [Option.bind_eq_bind, h1, Option.some_bind, h2, h3, h4, h5, h6,
    hdrop, htake, hdropv]
  simp

/-- **C5.** On the client command `hello nxclient - version <v>` (whose
argument string is `nxclient - version <v>`): if `v` parses under the
configured version digits `[2, 2, 4]` and equals the server's configured
protocol version number, the server replies code 134 with
`Accepted protocol: <v>`; if `v` fails to parse or differs from the
configured version, the server replies with the unsupported-protocol
error of code 500 marked fatal. -/
theorem C5_hello_version (v : String) (cfgVer : Nat)
    (hne : v.data ≠ []) (hv : ∀ c ∈ v.data, verChar c = true) :
    (∀ pv, ParseVersion v.data ('.' :: '-' :: []) PROTOCOL_VERSION_DIGITS = some pv →
      (pv = cfgVer →
        Hello ("nxclient - version " ++ v) cfgVer =
          .ok (134, "Accepted protocol: " ++ v)) ∧
      (pv ≠ cfgVer →
        Hello ("nxclient - version " ++ v) cfgVer = .error NxUnsupportedProtocol)) ∧
    (ParseVersion v.data ('.' :: '-' :: []) PROTOCOL_VERSION_DIGITS = none →
      Hello ("nxclient - version " ++ v) cfgVer = .error NxUnsupportedProtocol) ∧
    NxUnsupportedProtocol.code = 500 ∧ NxUnsupportedProtocol.fatal = true := by
  have hm : matchHello (("nxclient - version " ++ v).data) = some v.data := by
    rw [String.data_append]
    exact matchHello_version hne hv
  refine ⟨?_, ?_, rfl, rfl⟩
  · intro pv hpv
    constructor
    · intro heq
      subst heq
      unfold Hello
      rw [hm, Option.elim_some, hpv, Option.elim_some, if_neg (by simp)]
    · intro hne'
      unfold Hello
      rw [hm, Option.elim_some, hpv, Option.elim_some, if_pos hne']
  · intro hnone
    unfold Hello
    rw [hm, Option.elim_some, hnone, Option.elim_none]

/-- Witness for C5: against a server configured for protocol 3.3.0
(number 3030000), version `3.3.0` is accepted with code 134 and version
`2.0.0` is rejected with the 500 fatal error. -/
theorem C5_hello_version_witness :
    Hello ("nxclient - version " ++ "3.3.0") 3030000 =
      .ok (134, "Accepted protocol: " ++ "3.3.0") ∧
    Hello ("nxclient - version " ++ "2.0.0") 3030000 =
      .error NxUnsupportedProtocol :=
  ⟨((C5_hello_version "3.3.0" 3030000 (by decide) (by decide)).1 3030000 rfl).1 rfl,
   ((C5_hello_version "2.0.0" 3030000 (by decide) (by decide)).1 2000000 rfl).2 (by decide)⟩

/-! ## `neatx/lib/session.py`: session records

A `SessionBase` instance is slot-based: the seventeen `__slots__` names
are the only instance attributes.  A slot may be unassigned
(`Option.none` here); `__getattr__` makes reading an unassigned or
never-assigned slot name yield Python `None`, and raises
`AttributeError` for any other name.  Values are modelled by `PyValue`
(the record fields are JSON scalars).  The Python dict holding
serialized state is modelled as an association list in insertion order;
dict iteration order only permutes writes of distinct keys and cannot
change any result below. -/

inductive PyValue
  | none
  | bool (b : Bool)
  | int (n : Int)
  | str (s : String)
deriving DecidableEq, Repr

/-- Python exceptions raised by the modelled session code. -/
inductive PyExc
  | attributeError (name : String)
  | invalidSessionState
  | illegalCharacterError (msg : String)
deriving DecidableEq, Repr

/-- `SessionBase.__slots__`, in source order. -/
def SLOTS : List String :=
  ["cookie", "display", "fullscreen", "geometry", "hostname", "id", "name",
   "options", "port", "rootless", "screeninfo", "ssl", "state",
   "subscription", "type", "username", "virtualdesktop"]

/-- `constants.VALID_SESS_STATES` -/
def VALID_SESS_STATES : List String :=
  ["created", "starting", "waiting", "running", "suspending", "suspended",
   "terminating", "terminated"]

/-- A slot-based `SessionBase` instance: one optional value per slot;
`Option.none` is an unassigned slot. -/
structure SessionRec where
  cookie : Option PyValue := Option.none
  display : Option PyValue := Option.none
  fullscreen : Option PyValue := Option.none
  geometry : Option PyValue := Option.none
  hostname : Option PyValue := Option.none
  id : Option PyValue := Option.none
  name : Option PyValue := Option.none
  options : Option PyValue := Option.none
  port : Option PyValue := Option.none
  rootless : Option PyValue := Option.none
  screeninfo : Option PyValue := Option.none
  ssl : Option PyValue := Option.none
  state : Option PyValue := Option.none
  subscription : Option PyValue := Option.none
  type : Option PyValue := Option.none
  username : Option PyValue := Option.none
  virtualdesktop : Option PyValue := Option.none
deriving DecidableEq, Repr

/-- The slot cell for an attribute name, or `none` when the name is not
a slot. -/
def getSlot (s : SessionRec) (n : String) : Option (Option PyValue) :=
  if n = "cookie" then some s.cookie
  else if n = "display" then some s.display
  else if n = "fullscreen" then some s.fullscreen
  else if n = "geometry" then some s.geometry
  else if n = "hostname" then some s.hostname
  else if n = "id" then some s.id
  else if n = "name" then some s.name
  else if n = "options" then some s.options
  else if n = "port" then some s.port
  else if n = "rootless" then some s.rootless
  else if n = "screeninfo" then some s.screeninfo
  else if n = "ssl" then some s.ssl
  else if n = "state" then some s.state
  else if n = "subscription" then some s.subscription
  else if n = "type" then some s.type
  else if n = "username" then some s.username
  else if n = "virtualdesktop" then some s.virtualdesktop
  else Option.none

/-- Assignment to a slot (no-op for non-slot names; the session code
only assigns slot names). -/
def setSlot (s : SessionRec) (n : String) (v : PyValue) : SessionRec :=
  if n = "cookie" then { s with cookie := some v }
  else if n = "display" then { s with display := some v }
  else if n = "fullscreen" then { s with fullscreen := some v }
  else if n = "geometry" then { s with geometry := some v }
  else if n = "hostname" then { s with hostname := some v }
  else if n = "id" then { s with id := some v }
  else if n = "name" then { s with name := some v }
  else if n = "options" then { s with options := some v }
  else if n = "port" then { s with port := some v }
  else if n = "rootless" then { s with rootless := some v }
  else if n = "screeninfo" then { s with screeninfo := some v }
  else if n = "ssl" then { s with ssl := some v }
  else if n = "state" then { s with state := some v }
  else if n = "subscription" then { s with subscription := some v }
  else if n = "type" then { s with type := some v }
  else if n = "username" then { s with username := some v }
  else if n = "virtualdesktop" then { s with virtualdesktop := some v }
  else s

/-- Attribute read on a session object: an assigned slot reads its
value; an unassigned slot falls through the slot descriptor to
`SessionBase.__getattr__`, which returns `None` for slot names; any
other name reaches `__getattr__` and raises `AttributeError`. -/
def pyGetattr (s : SessionRec) (n : String) : Except PyExc PyValue :=
  match getSlot s n with
  | some slot => .ok (slot.getD PyValue.none)
  | Option.none => .error (.attributeError n)

/-- The value an attribute read yields (meaningful for slot names). -/
def readAttr (s : SessionRec) (n : String) : PyValue :=
  match getSlot s n with
  | some slot => slot.getD PyValue.none
  | Option.none => PyValue.none

/-- `hasattr`, which is true for every slot name because `__getattr__`
answers for unassigned slots. -/
def pyHasattr (s : SessionRec) (n : String) : Bool :=
  match pyGetattr s n with
  | .ok _ => true
  | .error _ => false

/-- Valid-state test of `SessionBase.__setattr__`:
`value in constants.VALID_SESS_STATES`. -/
def stateOK (v : PyValue) : Bool :=
  match v with
  | .str x => VALID_SESS_STATES.contains x
  | _ => false

/-- `SessionBase.__setattr__`: assigning `state` a value outside
`VALID_SESS_STATES` raises `InvalidSessionState`. -/
def pySetattr (s : SessionRec) (n : String) (v : PyValue) :
    Except PyExc SessionRec :=
  if n == "state" && !(stateOK v) then .error .invalidSessionState
  else .ok (setSlot s n v)

/-- `SessionBase.Serialize`: every slot name passes `hasattr` (see
`pyHasattr`), so the serialized dict holds all seventeen slots, with
`None` for unassigned ones. -/
def Serialize (s : SessionRec) : List (String × PyValue) :=
  SLOTS.filterMap fun n =>
    if pyHasattr s n then some (n, readAttr s n) else Option.none

/-- `session.SerializeSessionToString`: the serialized dict plus the
bookkeeping `_updated` timestamp `t`.  The JSON text layer
(`serializer.DumpJson`/`LoadJson`, thin wrappers over the Python
standard library `json` module) is modelled as the identity on the
dict, faithful because `json.loads(json.dumps(d)) == d` for dicts of
JSON scalars. -/
def SerializeSessionToString (s : SessionRec) (t : PyValue) :
    List (String × PyValue) :=
  Serialize s ++ [("_updated", t)]

/-- Key lookup in the serialized dict. -/
def dictGet (d : List (String × PyValue)) (n : String) : Option PyValue :=
  (d.find? (fun kv => kv.1 = n)).map Prod.snd

/-- `NxSession.Restore`/`NxSession._Restore`: on a freshly allocated
object, delete the slots missing from the dict (on the fresh object
every slot is unassigned, so `delattr` raises `AttributeError` at the
first missing name), then assign every dict entry whose key is a slot,
through `__setattr__`. -/
def restoreStep (s : SessionRec) (kv : String × PyValue) : Except PyExc SessionRec :=
  if SLOTS.contains kv.1 then pySetattr s kv.1 kv.2 else .ok s

/-- The `for name, value in state.iteritems(): if name in obj.__slots__:
setattr(obj, name, value)` loop of `_Restore`. -/
def restoreFold (s : SessionRec) : List (String × PyValue) → Except PyExc SessionRec
  | [] => .ok s
  | kv :: rest =>
    match restoreStep s kv with
    | .ok s2 => restoreFold s2 rest
    | .error e => .error e

def RestoreSession (d : List (String × PyValue)) : Except PyExc SessionRec :=
  (SLOTS.find? (fun n => (dictGet d n).isNone)).elim
    (restoreFold {} d) (fun n => .error (.attributeError n))

/-- `session.DeserializeSessionFromString`. -/
def DeserializeSessionFromString (d : List (String × PyValue)) :
    Except PyExc SessionRec :=
  RestoreSession d

/-- `NxSessionManager.LoadSession`: a missing record file
(`IOError` with `ENOENT`/`EACCES`) yields `None`; an existing file is
read and deserialized.  The session store is a map from session id to
the stored dict. -/
def LoadSession (store : String → Option (List (String × PyValue)))
    (sessid : String) : Except PyExc (Option SessionRec) :=
  match store sessid with
  | Option.none => .ok Option.none
  | some d => (DeserializeSessionFromString d).map some

/-- The record shape produced by restoring a serialized session: every
slot explicitly assigned (an unassigned slot was serialized as `None`
and restored as an assigned `None`). -/
def canonicalize (s : SessionRec) : SessionRec :=
  { cookie := some (s.cookie.getD PyValue.none)
    display := some (s.display.getD PyValue.none)
    fullscreen := some (s.fullscreen.getD PyValue.none)
    geometry := some (s.geometry.getD PyValue.none)
    hostname := some (s.hostname.getD PyValue.none)
    id := some (s.id.getD PyValue.none)
    name := some (s.name.getD PyValue.none)
    options := some (s.options.getD PyValue.none)
    port := some (s.port.getD PyValue.none)
    rootless := some (s.rootless.getD PyValue.none)
    screeninfo := some (s.screeninfo.getD PyValue.none)
    ssl := some (s.ssl.getD PyValue.none)
    state := some (s.state.getD PyValue.none)
    subscription := some (s.subscription.getD PyValue.none)
    type := some (s.type.getD PyValue.none)
    username := some (s.username.getD PyValue.none)
    virtualdesktop := some (s.virtualdesktop.getD PyValue.none) }

/-- **C2.** For every session record `s` (its `state`, as on every
record the code builds, holding a valid state string), deserializing
what `SerializeSessionToString(s)` produced yields a record equal to
`s` field by field, and the bookkeeping `_updated` timestamp is not
restored as a field; `LoadSession` on an id whose record file is
missing returns the absent value, never raising an error. -/
theorem C2_session_roundtrip (s : SessionRec) (st : String) (t : PyValue)
    (hst : s.state = some (PyValue.str st))
    (hstv : VALID_SESS_STATES.contains st = true) :
    (∃ s', DeserializeSessionFromString (SerializeSessionToString s t) = .ok s' ∧
      (∀ n ∈ SLOTS, readAttr s' n = readAttr s n) ∧
      pyGetattr s' "_updated" = .error (.attributeError "_updated")) ∧
    (∀ (store : String → Option (List (String × PyValue))) (sessid : String),
      store sessid = Option.none → LoadSession store sessid = .ok Option.none) := by
  constructor
  · refine ⟨canonicalize s, ?_, ?_, ?_⟩
    · obtain ⟨c1, c2, c3, c4, c5, c6, c7, c8, c9, c10, c11, c12, c13, c14, c15, c16, c17⟩ := s
      have hst' : c13 = some (PyValue.str st) := hst
      subst hst'
      have hmem : st = "created" ∨ st = "starting" ∨ st = "waiting" ∨ st = "running" ∨
          st = "suspending" ∨ st = "suspended" ∨ st = "terminating" ∨ st = "terminated" := by
        simpa [VALID_SESS_STATES] using hstv
      rcases hmem with rfl | rfl | rfl | rfl | rfl | rfl | rfl | rfl <;> rfl
    · intro n hn
      simp only [SLOTS, List.mem_cons, List.not_mem_nil, or_false] at hn
      rcases hn with rfl | rfl | rfl | rfl | rfl | rfl | rfl | rfl | rfl | rfl | rfl |
        rfl | rfl | rfl | rfl | rfl | rfl <;> rfl
    · rfl
  · intro store sessid h
    unfold LoadSession
    rw [h]

/-- Witness for C2 at a concrete record: a session whose only assigned
slot is a valid `state`, with timestamp 0. -/
theorem C2_session_roundtrip_witness :
    (∃ s', DeserializeSessionFromString
        (SerializeSessionToString { state := some (PyValue.str "waiting") }
          (PyValue.int 0)) = .ok s' ∧
      (∀ n ∈ SLOTS, readAttr s' n =
        readAttr { state := some (PyValue.str "waiting") } n) ∧
      pyGetattr s' "_updated" = .error (.attributeError "_updated")) ∧
    (∀ (store : String → Option (List (String × PyValue))) (sessid : String),
      store sessid = Option.none → LoadSession store sessid = .ok Option.none) :=
  C2_session_roundtrip { state := some (PyValue.str "waiting") } "waiting"
    (PyValue.int 0) rfl (by decide)

theorem getSlot_isSome_of_mem {s : SessionRec} {n : String} (h : n ∈ SLOTS) :
    (getSlot s n).isSome := by
  simp only [SLOTS, List.mem_cons, List.not_mem_nil, or_false] at h
  rcases h with rfl | rfl | rfl | rfl | rfl | rfl | rfl | rfl | rfl | rfl | rfl |
    rfl | rfl | rfl | rfl | rfl | rfl <;> rfl

theorem getSlot_eq_none_of_not_mem {s : SessionRec} {n : String}
    (h : n ∉ SLOTS) : getSlot s n = Option.none := by
  have h1 : ¬(n = "cookie") := fun he => h (by rw [he]; decide)
  have h2 : ¬(n = "display") := fun he => h (by rw [he]; decide)
  have h3 : ¬(n = "fullscreen") := fun he => h (by rw [he]; decide)
  have h4 : ¬(n = "geometry") := fun he => h (by rw [he]; decide)
  have h5 : ¬(n = "hostname") := fun he => h (by rw [he]; decide)
  have h6 : ¬(n = "id") := fun he => h (by rw [he]; decide)
  have h7 : ¬(n = "name") := fun he => h (by rw [he]; decide)
  have h8 : ¬(n = "options") := fun he => h (by rw [he]; decide)
  have h9 : ¬(n = "port") := fun he => h (by rw [he]; decide)
  have h10 : ¬(n = "rootless") := fun he => h (by rw [he]; decide)
  have h11 : ¬(n = "screeninfo") := fun he => h (by rw [he]; decide)
  have h12 : ¬(n = "ssl") := fun he => h (by rw [he]; decide)
  have h13 : ¬(n = "state") := fun he => h (by rw [he]; decide)
  have h14 : ¬(n = "subscription") := fun he => h (by rw [he]; decide)
  have h15 : ¬(n = "type") := fun he => h (by rw [he]; decide)
  have h16 : ¬(n = "username") := fun he => h (by rw [he]; decide)
  have h17 : ¬(n = "virtualdesktop") := fun he => h (by rw [he]; decide)
  unfold getSlot
  rw [if_neg h1, if_neg h2, if_neg h3, if_neg h4, if_neg h5, if_neg h6, if_neg h7, if_neg h8, if_neg h9, if_neg h10, if_neg h11, if_neg h12, if_neg h13, if_neg h14, if_neg h15, if_neg h16, if_neg h17]

/-- **C9.** For every session object and every attribute name in
`SessionBase.__slots__`, reading the attribute is total and never
raises — an attribute that was never assigned reads as `None` — while
reading a name not listed in the slots raises `AttributeError`. -/
theorem C9_slot_attributes (s : SessionRec) (n : String) :
    (n ∈ SLOTS → pyGetattr s n = .ok (readAttr s n)) ∧
    (n ∈ SLOTS → getSlot s n = some Option.none → pyGetattr s n = .ok PyValue.none) ∧
    (n ∉ SLOTS → pyGetattr s n = .error (.attributeError n)) := by
  refine ⟨?_, ?_, ?_⟩
  · intro h
    have hs := getSlot_isSome_of_mem (s := s) h
    revert hs
    cases hslot : getSlot s n with
    | none => intro hs; simp at hs
    | some slot => intro hs; simp [pyGetattr, readAttr, hslot]
  · intro h h2
    simp [pyGetattr, h2]
  · intro h
    simp [pyGetattr, getSlot_eq_none_of_not_mem h]

/-- Witness for C9: on a fresh record, the never-assigned slot `port`
reads as `None`; the non-slot name `bogus` raises `AttributeError`. -/
theorem C9_slot_attributes_witness :
    pyGetattr {} "port" = .ok PyValue.none ∧
    pyGetattr {} "bogus" = .error (.attributeError "bogus") :=
  ⟨(C9_slot_attributes {} "port").2.1 (by decide) rfl,
   (C9_slot_attributes {} "bogus").2.2 (by decide)⟩

/-! ## `lib/app/nxserver.py`: the listsession Options column -/

/-- Python truthiness of the JSON scalars a session record holds. -/
def pyTruthy (v : PyValue) : Bool :=
  match v with
  | .none => false
  | .bool b => b
  | .int n => n != 0
  | .str s => !s.data.isEmpty

/-- `startsWithChars needle hay`: `hay` begins with `needle`. -/
def startsWithChars : List Char → List Char → Bool
  | [], _ => true
  | _ :: _, [] => false
  | a :: as, b :: bs => a = b && startsWithChars as bs

/-- Python's substring test `needle in hay`. -/
def strContains (needle : List Char) : List Char → Bool
  | [] => startsWithChars needle []
  | c :: t => startsWithChars needle (c :: t) || strContains needle t

/-- Python `needle in value` where the value is a string (`screeninfo`
always is when set; the code guards the test with truthiness). -/
def pyInStr (needle : String) (v : PyValue) : Bool :=
  match v with
  | .str s => strContains needle.data s.data
  | _ => false

/-- `nxserver.FormatOptions`: eight flag characters — fullscreen flag,
render flag (the `screeninfo` value contains `render`), desktop flag
(`virtualdesktop` truthy), two reserved dashes, then `P`, `S`, `A`. -/
def FormatOptions (sess : SessionRec) : String :=
  String.join
    [if pyTruthy (readAttr sess "fullscreen") then "F" else "-",
     if pyTruthy (readAttr sess "screeninfo") &&
         pyInStr "render" (readAttr sess "screeninfo") then "R" else "-",
     if pyTruthy (readAttr sess "virtualdesktop") then "D" else "-",
     "-", "-", "P", "S", "A"]

/-- **C4 counterexample.** The record of the claim — fullscreen set,
`screeninfo = "1024x768x24+render"`, `virtualdesktop` unset — renders
as `FR---PSA`, not `F-R--PSA` as the claim states: the render flag
follows the fullscreen flag directly and only two reserved dashes
separate the desktop flag from `PSA`. -/
theorem C4_counterexample :
    FormatOptions
      { fullscreen := some (PyValue.bool true),
        screeninfo := some (PyValue.str "1024x768x24+render") } = "FR---PSA" ∧
    ("FR---PSA" : String) ≠ "F-R--PSA" := by
  constructor
  · rfl
  · decide

theorem strContains_ne_nil {needle hay : List Char} (hne : needle ≠ [])
    (h : strContains needle hay = true) : hay ≠ [] := by
  intro h0
  subst h0
  obtain ⟨c, t, rfl⟩ := List.exists_cons_of_ne_nil hne
  simp [strContains, startsWithChars] at h

/-- **C4 (amended).** For every session record with `fullscreen` truthy,
`screeninfo` a string containing the substring `render`, and
`virtualdesktop` unset, the Options column of the listsession table is
exactly `FR---PSA`; the column is eight characters, built as fullscreen
flag, render flag, desktop flag, two reserved dashes, then `P`, `S`,
`A`. -/
theorem C4_format_options (sess : SessionRec) (si : String)
    (hf : pyTruthy (readAttr sess "fullscreen") = true)
    (hsi : readAttr sess "screeninfo" = PyValue.str si)
    (hr : strContains ("render".data) si.data = true)
    (hv : readAttr sess "virtualdesktop" = PyValue.none) :
    FormatOptions sess = "FR---PSA" ∧
    ∀ sess' : SessionRec, (FormatOptions sess').length = 8 := by
  constructor
  · have hne : si.data ≠ [] := strContains_ne_nil (by decide) hr
    have htr : pyTruthy (PyValue.str si) = true := by
      simp [pyTruthy]
      exact hne
    simp [FormatOptions, hf, hsi, hv, htr, pyInStr, hr]
    rfl
  · intro sess'
    unfold FormatOptions
    generalize pyTruthy (readAttr sess' "fullscreen") = b1
    generalize (pyTruthy (readAttr sess' "screeninfo") &&
      pyInStr "render" (readAttr sess' "screeninfo")) = b2
    generalize pyTruthy (readAttr sess' "virtualdesktop") = b3
    cases b1 <;> cases b2 <;> cases b3 <;> rfl

/-- Witness for C4 at the claim's concrete record. -/
theorem C4_format_options_witness :
    FormatOptions
      { fullscreen := some (PyValue.bool true),
        screeninfo := some (PyValue.str "1024x768x24+render") } = "FR---PSA" ∧
    ∀ sess' : SessionRec, (FormatOptions sess').length = 8 :=
  C4_format_options
    { fullscreen := some (PyValue.bool true),
      screeninfo := some (PyValue.str "1024x768x24+render") }
    "1024x768x24+render" rfl rfl (by decide) rfl

/-! ## `neatx/lib/agent.py`: supervisor status changes

`_CheckStatus` matches each nxagent stderr line against `_STATUS_MAP`
and calls `_ChangeStatus(m, old, new)`; the map's keys are the seven
states other than `created`, and the `waiting` pattern captures the
port as `(?P<port>\d+)`.  Every call ends with `sess.state = new;
sess.Save()` (the assignment passes `__setattr__` validation because
the map keys are valid states).  The `created→starting` branch emits
the display-ready signal, the `suspending→suspended` restore branch
rewrites the options file and signals the agent, and the
`terminating→terminated` branch logs — none of those three touch the
record beyond the `state` field. -/

/-- One `_ChangeStatus` invocation: the new state and, for `waiting`
lines, the matched `port` group. -/
structure AgentEvent where
  new : String
  portGroup : List Char := []
deriving DecidableEq, Repr

/-- What the `_STATUS_MAP` regular expressions guarantee about an
event handed to `_ChangeStatus`. -/
def WFEvent (e : AgentEvent) : Prop :=
  e.new ∈ ["starting", "waiting", "running", "suspending", "suspended",
           "terminating", "terminated"] ∧
  (e.new = "waiting" → e.portGroup ≠ [] ∧ e.portGroup.all asciiDigit = true)

/-- The record mutation of `_ChangeStatus` before the final state
assignment: only the `new == waiting` branch touches a field, setting
`port` to the parsed number (`None` if the group were non-numeric). -/
def changeStatusPre (s : SessionRec) (e : AgentEvent) : SessionRec :=
  if PyValue.str e.new = readAttr s "state" then s
  else if readAttr s "state" = PyValue.str "created" ∧ e.new = "starting" then s
  else if e.new = "waiting" then
    setSlot s "port"
      (match pyInt e.portGroup with
       | some n => PyValue.int (n : Int)
       | Option.none => PyValue.none)
  else s

/-- `_ChangeStatus`: branch on `(old, new)`, then `sess.state = new`
and persist. -/
def changeStatus (s : SessionRec) (e : AgentEvent) : SessionRec :=
  setSlot (changeStatusPre s e) "state" (PyValue.str e.new)

/-- The record after a sequence of status-change events. -/
def applyEvents (s : SessionRec) : List AgentEvent → SessionRec
  | [] => s
  | e :: rest => applyEvents (changeStatus s e) rest

/-- The records persisted by `sess.Save()`: one snapshot after each
event. -/
def agentTrace (s : SessionRec) (evs : List AgentEvent) : List SessionRec :=
  (List.range evs.length).map (fun k => applyEvents s (evs.take (k + 1)))

/-- A freshly created session record as the node daemon builds it:
`state = created`, `port` never assigned. -/
def initialAgentSession : SessionRec :=
  { state := some (PyValue.str "created") }

/-- Has any event so far entered the waiting state? -/
def sawWaiting (evs : List AgentEvent) : Bool :=
  evs.any (fun e => e.new == "waiting")

theorem changeStatus_state (s : SessionRec) (e : AgentEvent) :
    readAttr (changeStatus s e) "state" = PyValue.str e.new := rfl

theorem changeStatus_port_of_ne {s : SessionRec} {e : AgentEvent}
    (h : e.new ≠ "waiting") :
    readAttr (changeStatus s e) "port" = readAttr s "port" := by
  unfold changeStatus changeStatusPre
  split_ifs <;> rfl

theorem changeStatus_port_waiting_old {s : SessionRec} {e : AgentEvent}
    (hw : e.new = "waiting") (hold : readAttr s "state" = PyValue.str "waiting") :
    readAttr (changeStatus s e) "port" = readAttr s "port" := by
  unfold changeStatus changeStatusPre
  rw [if_pos (by rw [hold, hw])]
  rfl

theorem changeStatus_port_waiting_new {s : SessionRec} {e : AgentEvent} {n : Nat}
    (hw : e.new = "waiting") (hold : readAttr s "state" ≠ PyValue.str "waiting")
    (hpg : pyInt e.portGroup = some n) :
    readAttr (changeStatus s e) "port" = PyValue.int (n : Int) := by
  unfold changeStatus changeStatusPre
  rw [if_neg (by rw [hw]; exact fun hc => hold hc.symm),
    if_neg (by rw [hw]; rintro ⟨-, hc⟩; simp at hc),
    if_pos hw, hpg]
  rfl

theorem pyInt_of_digits {cs : List Char} (hne : cs ≠ [])
    (hd : cs.all asciiDigit = true) : ∃ n, pyInt cs = some n := by
  refine ⟨cs.foldl (fun acc c => 10 * acc + digitVal c) 0, ?_⟩
  simp [pyInt, hne, hd]

/-- The port field records exactly whether a waiting transition has
happened: it starts out unset, the first transition into `waiting`
assigns it, and no later transition clears it. -/
theorem agent_port_invariant (evs : List AgentEvent) :
    ∀ s : SessionRec, (∀ e ∈ evs, WFEvent e) →
    (readAttr s "state" = PyValue.str "waiting" → readAttr s "port" ≠ PyValue.none) →
    ((readAttr (applyEvents s evs) "port" ≠ PyValue.none ↔
      (readAttr s "port" ≠ PyValue.none ∨ sawWaiting evs = true)) ∧
     (readAttr (applyEvents s evs) "state" = PyValue.str "waiting" →
      readAttr (applyEvents s evs) "port" ≠ PyValue.none)) := by
  induction evs with
  | nil =>
    intro s hwf hinv
    exact ⟨by simp [applyEvents, sawWaiting], hinv⟩
  | cons e rest ih =>
    intro s hwf hinv
    have hwfe : WFEvent e := hwf e (by simp)
    have hwfr : ∀ x ∈ rest, WFEvent x := fun x hx => hwf x (by simp [hx])
    have happ : applyEvents s (e :: rest) = applyEvents (changeStatus s e) rest := rfl
    by_cases hw : e.new = "waiting"
    · have hsaw : sawWaiting (e :: rest) = true := by simp [sawWaiting, hw]
      by_cases hold : readAttr s "state" = PyValue.str "waiting"
      · have hport := changeStatus_port_waiting_old hw hold
        have hp : readAttr (changeStatus s e) "port" ≠ PyValue.none := by
          rw [hport]; exact hinv hold
        have hinv' : readAttr (changeStatus s e) "state" = PyValue.str "waiting" →
            readAttr (changeStatus s e) "port" ≠ PyValue.none := fun _ => hp
        obtain ⟨ih1, ih2⟩ := ih (changeStatus s e) hwfr hinv'
        rw [happ]
        refine ⟨?_, ih2⟩
        rw [hsaw]
        simp only [or_true, iff_true]
        rw [ih1]
        exact Or.inl hp
      · obtain ⟨hne, hdig⟩ := hwfe.2 hw
        obtain ⟨n, hpn⟩ := pyInt_of_digits hne hdig
        have hport := changeStatus_port_waiting_new hw hold hpn
        have hp : readAttr (changeStatus s e) "port" ≠ PyValue.none := by
          rw [hport]; simp
        have hinv' : readAttr (changeStatus s e) "state" = PyValue.str "waiting" →
            readAttr (changeStatus s e) "port" ≠ PyValue.none := fun _ => hp
        obtain ⟨ih1, ih2⟩ := ih (changeStatus s e) hwfr hinv'
        rw [happ]
        refine ⟨?_, ih2⟩
        rw [hsaw]
        simp only [or_true, iff_true]
        rw [ih1]
        exact Or.inl hp
    · have hport := changeStatus_port_of_ne (s := s) hw
      have hinv' : readAttr (changeStatus s e) "state" = PyValue.str "waiting" →
          readAttr (changeStatus s e) "port" ≠ PyValue.none := by
        rw [changeStatus_state]
        intro hc
        exact absurd (by injection hc) hw
      obtain ⟨ih1, ih2⟩ := ih (changeStatus s e) hwfr hinv'
      rw [happ]
      refine ⟨?_, ih2⟩
      rw [ih1, hport]
      have hsaw : sawWaiting (e :: rest) = sawWaiting rest := by
        simp [sawWaiting, hw]
      rw [hsaw]

/-- **C3 counterexample.** A session that starts, reaches `waiting` on
port 5000 and is then terminated: the supervisor persists a record
whose `state` is `terminating` while `port` is still set — the code
never clears `port`, so it is not set *only* in the four claimed
states. -/
theorem C3_counterexample :
    ∃ r ∈ agentTrace initialAgentSession
      [⟨"starting", []⟩, ⟨"waiting", ['5', '0', '0', '0']⟩, ⟨"terminating", []⟩],
      readAttr r "port" ≠ PyValue.none ∧
      readAttr r "state" ∉ [PyValue.str "waiting", PyValue.str "running",
        PyValue.str "suspending", PyValue.str "suspended"] := by
  refine ⟨applyEvents initialAgentSession
    [⟨"starting", []⟩, ⟨"waiting", ['5', '0', '0', '0']⟩, ⟨"terminating", []⟩], ?_, ?_⟩
  · simp [agentTrace]
    exact ⟨2, by decide, rfl⟩
  · decide

/-- **C3 (amended).** In every record persisted by the agent
supervisor (each is `applyEvents` of a prefix of the status-change
events, starting from a fresh record with `state = created` and no
port), the `port` field is set if and only if some status-change event
so far has entered the waiting state: `port` is unset in records
persisted before the first `waiting` transition (states `created`,
`starting`), is assigned on entering `waiting`, and is never cleared
afterwards — including in `terminating` and `terminated` records. -/
theorem C3_port_lifecycle (s₀ : SessionRec) (evs : List AgentEvent)
    (h₀s : readAttr s₀ "state" = PyValue.str "created")
    (h₀p : readAttr s₀ "port" = PyValue.none)
    (hwf : ∀ e ∈ evs, WFEvent e) :
    ∀ k, (readAttr (applyEvents s₀ (evs.take k)) "port" ≠ PyValue.none ↔
      sawWaiting (evs.take k) = true) := by
  intro k
  have hwfk : ∀ e ∈ evs.take k, WFEvent e := fun e he =>
    hwf e (List.take_subset k evs he)
  have hinv₀ : readAttr s₀ "state" = PyValue.str "waiting" →
      readAttr s₀ "port" ≠ PyValue.none := by
    rw [h₀s]
    intro hc
    exact absurd (by injection hc) (by decide)
  have h := (agent_port_invariant (evs.take k) s₀ hwfk hinv₀).1
  rw [h, h₀p]
  simp

/-- Witness for C3: after start, waiting on port 5000 and terminate,
the persisted record still has its port set, matching the first
`waiting` event in the prefix. -/
theorem C3_port_lifecycle_witness :
    readAttr (applyEvents initialAgentSession
      (List.take 3 [⟨"starting", []⟩, ⟨"waiting", ['5', '0', '0', '0']⟩,
        ⟨"terminating", []⟩])) "port" ≠ PyValue.none ↔
    sawWaiting (List.take 3 [⟨"starting", []⟩,
      ⟨"waiting", ['5', '0', '0', '0']⟩, ⟨"terminating", []⟩]) = true :=
  C3_port_lifecycle initialAgentSession
    [⟨"starting", []⟩, ⟨"waiting", ['5', '0', '0', '0']⟩, ⟨"terminating", []⟩]
    rfl rfl
    (by
      intro e he
      simp only [List.mem_cons, List.not_mem_nil, or_false] at he
      rcases he with rfl | rfl | rfl <;> exact ⟨by decide, by decide⟩) 3

/-! ## `neatx/lib/agent.py`: the nxagent options file

`_WriteOptionsFile(opts)` checks every option name and value for the
illegal character `,`, formats the line with `_FormatNxAgentOptions`,
and hands it to `utils.WriteFile(filename, data, mode=0600)`, which
writes a temporary file and renames it over the target; the write is
modelled as one atomic file-state update carrying content and mode.
The Python dict `opts` is modelled as an association list in iteration
order. -/

/-- `_FormatNxAgentOptions(opts)`: `"nx/nx,%s:%d\n"` where `%s` is the
comma-joined `name=value` pairs and `%d` the session display. -/
def FormatNxAgentOptions (opts : List (String × String)) (display : Nat) : String :=
  "nx/nx," ++ String.intercalate "," (opts.map fun kv => kv.1 ++ "=" ++ kv.2) ++
    ":" ++ toString display ++ "\n"

/-- `__CheckOptsChars`: for each option, first the name then the value
is checked for `,`; the first offender raises
`errors.IllegalCharacterError`. -/
def CheckOptsChars : List (String × String) → Except PyExc Unit
  | [] => .ok ()
  | (n, v) :: rest =>
    if n.data.contains ',' then
      .error (.illegalCharacterError
        ("Name of option '" ++ n ++ "' contains illegal character ','"))
    else if v.data.contains ',' then
      .error (.illegalCharacterError
        ("Value of option '" ++ n ++ "' ('" ++ v ++ "') contains illegal character ','"))
    else CheckOptsChars rest

/-- The result of an atomic `utils.WriteFile`: full new content and
file mode. -/
structure FileWrite where
  content : String
  mode : Nat
deriving DecidableEq, Repr

/-- `NxAgentProgram._WriteOptionsFile`. -/
def WriteOptionsFile (opts : List (String × String)) (display : Nat) :
    Except PyExc FileWrite :=
  (CheckOptsChars opts).map fun _ =>
    { content := FormatNxAgentOptions opts display, mode := 0o600 }

/-- The options line as the claim words it (comma-separated pairs, then
`:<display>` and a newline, with no prefix).  This definition follows
the specification's words, to be compared with the code's
`FormatNxAgentOptions`. -/
def specOptionsLine (opts : List (String × String)) (display : Nat) : String :=
  String.intercalate "," (opts.map fun kv => kv.1 ++ "=" ++ kv.2) ++
    ":" ++ toString display ++ "\n"

/-- **C7 counterexample.** For the option set `{accept: 127.0.0.1}` on
display 20 the daemon writes the line `nx/nx,accept=127.0.0.1:20\n`,
not the claim's `accept=127.0.0.1:20\n`: the line carries the literal
`nx/nx,` prefix before the pairs. -/
theorem C7_counterexample :
    WriteOptionsFile [("accept", "127.0.0.1")] 20 =
      .ok { content := "nx/nx,accept=127.0.0.1:20\n", mode := 0o600 } ∧
    ("nx/nx,accept=127.0.0.1:20\n" : String) ≠
      specOptionsLine [("accept", "127.0.0.1")] 20 := by
  constructor
  · rfl
  · decide

theorem checkOptsChars_ok {opts : List (String × String)}
    (h : ∀ kv ∈ opts, kv.1.data.contains ',' = false ∧
      kv.2.data.contains ',' = false) : CheckOptsChars opts = .ok () := by
  induction opts with
  | nil => rfl
  | cons kv rest ih =>
    obtain ⟨hn, hv⟩ := h kv (by simp)
    obtain ⟨n, v⟩ := kv
    simp only [CheckOptsChars, hn, hv, Bool.false_eq_true, if_false]
    exact ih (fun x hx => h x (by simp [hx]))

theorem checkOptsChars_err {opts : List (String × String)}
    (h : ∃ kv ∈ opts, kv.1.data.contains ',' = true ∨
      kv.2.data.contains ',' = true) :
    ∃ msg, CheckOptsChars opts = .error (.illegalCharacterError msg) := by
  induction opts with
  | nil => simp at h
  | cons kv rest ih =>
    obtain ⟨n, v⟩ := kv
    by_cases hn : n.data.contains ',' = true
    · exact ⟨"Name of option '" ++ n ++ "' contains illegal character ','",
        by simp only [CheckOptsChars, hn, if_true]⟩
    · by_cases hv : v.data.contains ',' = true
      · refine ⟨"Value of option '" ++ n ++ "' ('" ++ v ++
          "') contains illegal character ','", ?_⟩
        simp only [CheckOptsChars, hn, Bool.false_eq_true, if_false, hv, if_true]
      · have hrest : ∃ kv ∈ rest, kv.1.data.contains ',' = true ∨
            kv.2.data.contains ',' = true := by
          obtain ⟨x, hx, hor⟩ := h
          rcases List.mem_cons.mp hx with rfl | hx'
          · rcases hor with hc | hc
            · exact absurd hc hn
            · exact absurd hc hv
          · exact ⟨x, hx', hor⟩
        obtain ⟨msg, hmsg⟩ := ih hrest
        refine ⟨msg, ?_⟩
        simp only [CheckOptsChars, hn, hv, Bool.false_eq_true, if_false]
        exact hmsg

/-- **C7 (amended).** The options file written by the node daemon for
the display agent is a single line `nx/nx,` followed by the
comma-separated `name=value` pairs, then `:<display>` and a newline,
written atomically with file mode 0600; if any option name or value
contains a comma the write fails with the illegal-character error
instead of producing a file. -/
theorem C7_options_file (opts : List (String × String)) (display : Nat) :
    ((∀ kv ∈ opts, kv.1.data.contains ',' = false ∧
        kv.2.data.contains ',' = false) →
      WriteOptionsFile opts display =
        .ok { content := "nx/nx," ++ specOptionsLine opts display,
              mode := 0o600 }) ∧
    ((∃ kv ∈ opts, kv.1.data.contains ',' = true ∨
        kv.2.data.contains ',' = true) →
      ∃ msg, WriteOptionsFile opts display =
        .error (.illegalCharacterError msg)) := by
  constructor
  · intro h
    unfold WriteOptionsFile
    rw [checkOptsChars_ok h]
    simp [Except.map, FormatNxAgentOptions, specOptionsLine, String.append_assoc]
  · intro h
    obtain ⟨msg, hmsg⟩ := checkOptsChars_err h
    refine ⟨msg, ?_⟩
    unfold WriteOptionsFile
    rw [hmsg]
    rfl

/-- Witness for C7: the comma-free option set is written with the
`nx/nx,` prefix and mode 0600; an option value holding a comma makes
the write fail with the illegal-character error. -/
theorem C7_options_file_witness :
    WriteOptionsFile [("accept", "127.0.0.1")] 20 =
      .ok { content := "nx/nx," ++ specOptionsLine [("accept", "127.0.0.1")] 20,
            mode := 0o600 } ∧
    ∃ msg, WriteOptionsFile [("accept", "127.0.0.1,8.8.8.8")] 20 =
      .error (.illegalCharacterError msg) :=
  ⟨(C7_options_file [("accept", "127.0.0.1")] 20).1 (by decide),
   (C7_options_file [("accept", "127.0.0.1,8.8.8.8")] 20).2
     ⟨("accept", "127.0.0.1,8.8.8.8"), by simp, Or.inr (by decide)⟩⟩

/-! ## `utils.Retry` and `nxserver._WaitForSessionReady`

`Retry(fn, start, factor, limit, timeout)` calls `fn` until it stops
raising `RetryAgain`; between calls it checks the wall clock against
`end_time`, sleeps the current delay and multiplies the delay by
`factor` while it is below `limit`.  Delays are exact rationals
standing for the Python floats (every comparison in a reachable run is
at distance ≥ 0.24 from the tie, so float rounding — at most a few
ulps here — cannot change any branch).  Time is advanced by the sleeps
only; `fn` is modelled as a scripted list of outcomes, one per call. -/

/-- A line `NX> <code> <msg>` written to the client. -/
structure NxWrite where
  code : Nat
  msg : String
deriving DecidableEq, Repr

/-- One call of the retried function: a value, `RetryAgain`, or
`NxQuitServer` raised after writing an error line. -/
inductive FnCall (α : Type)
  | ok (a : α)
  | again
  | exc (w : NxWrite)
deriving DecidableEq, Repr

/-- How a `Retry` run ends (`noMoreCalls`: the scripted outcomes ran
out while the loop would have continued). -/
inductive RetryOut (α : Type)
  | ok (a : α)
  | timedOut
  | exc (w : NxWrite)
  | noMoreCalls
deriving DecidableEq, Repr

/-- `utils.Retry`, returning the outcome and the list of delays slept,
in order. -/
def Retry (α : Type) : List (FnCall α) → ℚ → ℚ → ℚ → ℚ → ℚ → RetryOut α × List ℚ
  | [], _, _, _, _, _ => (.noMoreCalls, [])
  | c :: rest, delay, factor, limit, elapsed, timeout =>
    match c with
    | .ok a => (.ok a, [])
    | .exc w => (.exc w, [])
    | .again =>
      if timeout < elapsed then (.timedOut, [])
      else
        let r := Retry α rest (if delay < limit then delay * factor else delay)
          factor limit (elapsed + delay) timeout
        (r.1, delay :: r.2)

/-- The delay before the k-th sleep of a `Retry(fn, 0.1, 1.5, 1.0, …)`
loop: 0.1 multiplied by 1.5 while below the 1 s limit. -/
def delaySeq : Nat → ℚ
  | 0 => 1 / 10
  | k + 1 => if delaySeq k < 1 then delaySeq k * (3 / 2) else delaySeq k

/-- Total time slept by the first `k` sleeps starting at delay index
`m`. -/
def delayTotal (m : Nat) : Nat → ℚ
  | 0 => 0
  | k + 1 => delaySeq m + delayTotal (m + 1) k

/-- Python `repr` of the record scalars, as `%r` formats them. -/
def pyReprVal (v : PyValue) : String :=
  match v with
  | .none => "None"
  | .bool b => if b then "True" else "False"
  | .int n => toString n
  | .str s => "'" ++ s ++ "'"

/-- The `NX> 500` line `_CheckForSessionReady` writes before quitting
when the session reached a terminal state. -/
def sessAbortMsg (sess : SessionRec) : String :=
  "Error: Session " ++ pyReprVal (readAttr sess "id") ++ " has status " ++
    pyReprVal (readAttr sess "state") ++ ", aborting"

/-- The inner `_CheckForSessionReady` of
`ServerCommandHandler._WaitForSessionReady`, applied to one
`LoadSession` result: the waiting state returns the session, the
terminal states write a 500 line and raise `NxQuitServer`, anything
else (including a missing record) raises `RetryAgain`. -/
def CheckForSessionReady (sess : Option SessionRec) : FnCall SessionRec :=
  match sess with
  | some sess =>
    if readAttr sess "state" = PyValue.str "waiting" then .ok sess
    else if readAttr sess "state" = PyValue.str "terminating" ∨
        readAttr sess "state" = PyValue.str "terminated" then
      .exc ⟨500, sessAbortMsg sess⟩
    else .again
  | Option.none => .again

/-- How `_WaitForSessionReady` ends. -/
inductive WaitOut
  | ready (s : SessionRec)
  | failed (w : NxWrite)
  | noMoreCalls
deriving DecidableEq, Repr

/-- `_WaitForSessionReady(sessid, timeout)`:
`utils.Retry(_CheckForSessionReady, 0.1, 1.5, 1.0, timeout)`, with
`RetryTimeout` turned into a 500 line and `NxQuitServer`.  `polls` is
the sequence of `LoadSession` results the loop observes. -/
def WaitForSessionReady (polls : List (Option SessionRec)) (timeout : ℚ) :
    WaitOut × List ℚ :=
  match Retry SessionRec (polls.map CheckForSessionReady) (1 / 10) (3 / 2) 1 0 timeout with
  | (.ok s, sl) => (.ready s, sl)
  | (.timedOut, sl) => (.failed ⟨500, "Session didn't become ready in time"⟩, sl)
  | (.exc w, sl) => (.failed w, sl)
  | (.noMoreCalls, sl) => (.noMoreCalls, sl)

/-- `nxserver._SESSION_START_TIMEOUT` -/
def SESSION_START_TIMEOUT : ℚ := 30

/-- `nxserver._SESSION_RESTORE_TIMEOUT` -/
def SESSION_RESTORE_TIMEOUT : ℚ := 60

/-- The wait `_StartSession` and `_AttachSession` perform. -/
def startSessionWait (polls : List (Option SessionRec)) : WaitOut × List ℚ :=
  WaitForSessionReady polls SESSION_START_TIMEOUT

/-- The wait `_RestoreSession` performs. -/
def restoreSessionWait (polls : List (Option SessionRec)) : WaitOut × List ℚ :=
  WaitForSessionReady polls SESSION_RESTORE_TIMEOUT

theorem delaySeq_closed (k : Nat) : delaySeq k = (1 / 10) * (3 / 2) ^ (min k 6) := by
  induction k with
  | zero => simp [delaySeq]
  | succ k ih =>
    rw [delaySeq, ih]
    rcases le_or_lt k 5 with hk | hk
    · have hmin : min k 6 = k := by omega
      have hmin' : min (k + 1) 6 = k + 1 := by omega
      rw [hmin, hmin', if_pos ?lt]
      · ring
      case lt => interval_cases k <;> norm_num
    · have hmin : min k 6 = 6 := by omega
      have hmin' : min (k + 1) 6 = 6 := by omega
      rw [hmin, hmin', if_neg (by norm_num)]

theorem delaySeq_le (k : Nat) : delaySeq k ≤ 729 / 640 := by
  rw [delaySeq_closed]
  have hexp : (3 / 2 : ℚ) ^ (min k 6) ≤ (3 / 2) ^ 6 := by
    apply pow_le_pow_right₀ (by norm_num)
    omega
  nlinarith

/-- Running `Retry` through `k` scripted `RetryAgain` results, all
within the time budget, sleeps the delays `delaySeq m, …,
delaySeq (m+k-1)` and continues with the rest of the script. -/
theorem Retry_replicate (α : Type) (k : Nat) : ∀ (m : Nat) (rest : List (FnCall α))
    (e timeout : ℚ), (∀ i < k, e + delayTotal m i ≤ timeout) →
    Retry α (List.replicate k .again ++ rest) (delaySeq m) (3 / 2) 1 e timeout =
      ((Retry α rest (delaySeq (m + k)) (3 / 2) 1 (e + delayTotal m k) timeout).1,
       (List.range k).map (fun j => delaySeq (m + j)) ++
         (Retry α rest (delaySeq (m + k)) (3 / 2) 1 (e + delayTotal m k) timeout).2) := by
  induction k with
  | zero =>
    intro m rest e timeout hbud
    simp [delayTotal]
  | succ k ih =>
    intro m rest e timeout hbud
    have h0 : e ≤ timeout := by
      have := hbud 0 (Nat.succ_pos k)
      simpa [delayTotal] using this
    rw [List.replicate_succ, List.cons_append]
    show (if timeout < e then ((.timedOut : RetryOut α), ([] : List ℚ))
      else
        let r := Retry α (List.replicate k .again ++ rest)
          (if delaySeq m < 1 then delaySeq m * (3 / 2) else delaySeq m)
          (3 / 2) 1 (e + delaySeq m) timeout
        (r.1, delaySeq m :: r.2)) = _
    rw [if_neg (not_lt.mpr h0)]
    have hstep : (if delaySeq m < 1 then delaySeq m * (3 / 2) else delaySeq m) =
        delaySeq (m + 1) := rfl
    rw [hstep]
    have hbud' : ∀ i < k, (e + delaySeq m) + delayTotal (m + 1) i ≤ timeout := by
      intro i hi
      have := hbud (i + 1) (by omega)
      rw [delayTotal] at this
      linarith
    rw [ih (m + 1) rest (e + delaySeq m) timeout hbud']
    have htot : e + delaySeq m + delayTotal (m + 1) k = e + delayTotal m (k + 1) := by
      rw [delayTotal]
      ring
    have hidx : m + 1 + k = m + (k + 1) := by omega
    rw [htot, hidx]
    have hmap : (List.range (k + 1)).map (fun j => delaySeq (m + j)) =
        delaySeq m :: (List.range k).map (fun j => delaySeq (m + 1 + j)) := by
      rw [List.range_succ_eq_map, List.map_cons, List.map_map]
      refine congrArg₂ _ (by rw [Nat.add_zero]) ?_
      apply List.map_congr_left
      intro j hj
      simp only [Function.comp_apply, Nat.succ_eq_add_one]
      congr 1
      omega
    rw [hmap, List.cons_append]

theorem map_check_replicate {front : List (Option SessionRec)}
    (hfront : ∀ p ∈ front, CheckForSessionReady p = .again) :
    front.map CheckForSessionReady = List.replicate front.length .again := by
  apply List.eq_replicate_iff.mpr
  refine ⟨by simp, ?_⟩
  intro b hb
  obtain ⟨p, hp, rfl⟩ := List.mem_map.mp hb
  exact hfront p hp

theorem wait_ready {front back : List (Option SessionRec)} {s : SessionRec} {t : ℚ}
    (hfront : ∀ p ∈ front, CheckForSessionReady p = .again)
    (hbud : ∀ i < front.length, delayTotal 0 i ≤ t)
    (hs : readAttr s "state" = PyValue.str "waiting") :
    WaitForSessionReady (front ++ some s :: back) t =
      (.ready s, (List.range front.length).map delaySeq) := by
  unfold WaitForSessionReady
  rw [List.map_append, List.map_cons, map_check_replicate hfront,
    show ((1 : ℚ) / 10) = delaySeq 0 from rfl,
    Retry_replicate SessionRec front.length 0 _ 0 t
      (by intro i hi; simpa using hbud i hi)]
  have hchk : CheckForSessionReady (some s) = .ok s := by
    simp only [CheckForSessionReady]
    rw [if_pos hs]
  rw [hchk]
  simp [Retry]

theorem wait_terminal {front back : List (Option SessionRec)} {s : SessionRec} {t : ℚ}
    (hfront : ∀ p ∈ front, CheckForSessionReady p = .again)
    (hbud : ∀ i < front.length, delayTotal 0 i ≤ t)
    (hs : readAttr s "state" = PyValue.str "terminating" ∨
      readAttr s "state" = PyValue.str "terminated") :
    WaitForSessionReady (front ++ some s :: back) t =
      (.failed ⟨500, sessAbortMsg s⟩, (List.range front.length).map delaySeq) := by
  unfold WaitForSessionReady
  rw [List.map_append, List.map_cons, map_check_replicate hfront,
    show ((1 : ℚ) / 10) = delaySeq 0 from rfl,
    Retry_replicate SessionRec front.length 0 _ 0 t
      (by intro i hi; simpa using hbud i hi)]
  have hnw : ¬(readAttr s "state" = PyValue.str "waiting") := by
    rcases hs with hs | hs <;> (rw [hs]; intro hc; exact absurd (by injection hc) (by decide))
  have hchk : CheckForSessionReady (some s) = .exc ⟨500, sessAbortMsg s⟩ := by
    simp only [CheckForSessionReady]
    rw [if_neg hnw, if_pos hs]
  rw [hchk]
  simp [Retry]

theorem Retry_again_timeout {α : Type} {rest : List (FnCall α)} {d f l e t : ℚ}
    (h : t < e) : Retry α (.again :: rest) d f l e t = (.timedOut, []) := by
  show (if t < e then ((.timedOut : RetryOut α), ([] : List ℚ)) else _) = _
  rw [if_pos h]

theorem wait_timeout {front back : List (Option SessionRec)} {p : Option SessionRec} {t : ℚ}
    (hfront : ∀ q ∈ front, CheckForSessionReady q = .again)
    (hp : CheckForSessionReady p = .again)
    (hbud : ∀ i < front.length, delayTotal 0 i ≤ t)
    (hover : t < delayTotal 0 front.length) :
    WaitForSessionReady (front ++ p :: back) t =
      (.failed ⟨500, "Session didn't become ready in time"⟩,
       (List.range front.length).map delaySeq) := by
  unfold WaitForSessionReady
  rw [List.map_append, List.map_cons, map_check_replicate hfront,
    show ((1 : ℚ) / 10) = delaySeq 0 from rfl,
    Retry_replicate SessionRec front.length 0 _ 0 t
      (by intro i hi; simpa using hbud i hi), hp,
    Retry_again_timeout (show t < 0 + delayTotal 0 front.length by linarith)]
  simp

/-- **C6 counterexample.** Within the 30 s startsession budget, if the
record stays missing for eight polls the loop's seventh sleep is
729/640 s = 1.1390625 s — the delay does exceed the 1 s limit (the
code multiplies by 1.5 once more whenever the delay is still *below*
the limit, so the delay peaks above it). -/
theorem C6_counterexample :
    ∃ d ∈ (startSessionWait (List.replicate 8 Option.none)).2, d > 1 := by
  have hmap : (List.replicate 8 (Option.none : Option SessionRec)).map CheckForSessionReady
      = List.replicate 8 .again := by
    have := @map_check_replicate (List.replicate 8 (Option.none : Option SessionRec))
      (fun p hp => by rw [List.eq_of_mem_replicate hp]; rfl)
    simpa using this
  have hbud : ∀ i < 8, (0 : ℚ) + delayTotal 0 i ≤ 30 := by
    intro i hi
    interval_cases i <;> norm_num [delayTotal, delaySeq]
  have h : (startSessionWait (List.replicate 8 Option.none)).2 =
      (List.range 8).map delaySeq := by
    unfold startSessionWait WaitForSessionReady SESSION_START_TIMEOUT
    rw [hmap, show ((1 : ℚ) / 10) = delaySeq 0 from rfl]
    rw [show (List.replicate 8 (FnCall.again : FnCall SessionRec)) =
      List.replicate 8 .again ++ [] from (List.append_nil _).symm]
    rw [Retry_replicate SessionRec 8 0 [] 0 30 hbud]
    simp [Retry]
  refine ⟨delaySeq 6, ?_, ?_⟩
  · rw [h]
    exact List.mem_map.mpr ⟨6, by simp, rfl⟩
  · rw [delaySeq_closed]
    norm_num

/-- **C6 (amended).** In the broker's wait for session readiness, the
session record is polled until `state = waiting`, failing immediately
(a 500 line and quit) if the state enters terminating or terminated;
the delay between polls starts at 100 ms and is multiplied by 1.5
after an attempt whenever it is still below the 1 s limit, so it stops
growing once it reaches 1.1390625 s and never exceeds that value (it
can exceed the 1 s limit itself once, by half); the whole loop fails
with a timeout (500 line and quit) when the budget is exhausted, the
budget being 30 s for startsession (and attachsession) and 60 s for
restoresession. -/
theorem C6_session_ready_poll :
    (∀ polls, startSessionWait polls = WaitForSessionReady polls SESSION_START_TIMEOUT) ∧
    SESSION_START_TIMEOUT = 30 ∧
    (∀ polls, restoreSessionWait polls = WaitForSessionReady polls SESSION_RESTORE_TIMEOUT) ∧
    SESSION_RESTORE_TIMEOUT = 60 ∧
    delaySeq 0 = 1 / 10 ∧
    (∀ k, delaySeq k < 1 → delaySeq (k + 1) = delaySeq k * (3 / 2)) ∧
    (∀ k, ¬delaySeq k < 1 → delaySeq (k + 1) = delaySeq k) ∧
    (∀ k, delaySeq k ≤ 729 / 640) ∧
    (∀ (front back : List (Option SessionRec)) (s : SessionRec) (t : ℚ),
      (∀ p ∈ front, CheckForSessionReady p = .again) →
      (∀ i < front.length, delayTotal 0 i ≤ t) →
      readAttr s "state" = PyValue.str "waiting" →
      WaitForSessionReady (front ++ some s :: back) t =
        (.ready s, (List.range front.length).map delaySeq)) ∧
    (∀ (front back : List (Option SessionRec)) (s : SessionRec) (t : ℚ),
      (∀ p ∈ front, CheckForSessionReady p = .again) →
      (∀ i < front.length, delayTotal 0 i ≤ t) →
      (readAttr s "state" = PyValue.str "terminating" ∨
       readAttr s "state" = PyValue.str "terminated") →
      WaitForSessionReady (front ++ some s :: back) t =
        (.failed ⟨500, sessAbortMsg s⟩, (List.range front.length).map delaySeq)) ∧
    (∀ (front back : List (Option SessionRec)) (p : Option SessionRec) (t : ℚ),
      (∀ q ∈ front, CheckForSessionReady q = .again) →
      CheckForSessionReady p = .again →
      (∀ i < front.length, delayTotal 0 i ≤ t) →
      t < delayTotal 0 front.length →
      WaitForSessionReady (front ++ p :: back) t =
        (.failed ⟨500, "Session didn't become ready in time"⟩,
         (List.range front.length).map delaySeq)) :=
  ⟨fun _ => rfl, rfl, fun _ => rfl, rfl, rfl,
   fun k h => by rw [delaySeq, if_pos h],
   fun k h => by rw [delaySeq, if_neg h],
   delaySeq_le,
   fun _ _ _ _ h1 h2 h3 => wait_ready h1 h2 h3,
   fun _ _ _ _ h1 h2 h3 => wait_terminal h1 h2 h3,
   fun _ _ _ _ h1 h2 h3 h4 => wait_timeout h1 h2 h3 h4⟩

/-- Witness for C6: one missing-record poll then a waiting record —
the loop sleeps once (100 ms) and returns the session ready. -/
theorem C6_session_ready_poll_witness :
    WaitForSessionReady
      ([Option.none] ++ some { state := some (PyValue.str "waiting") } :: []) 30 =
      (.ready { state := some (PyValue.str "waiting") },
       (List.range ([Option.none] : List (Option SessionRec)).length).map delaySeq) :=
  C6_session_ready_poll.2.2.2.2.2.2.2.2.1 [Option.none] []
    { state := some (PyValue.str "waiting") } 30
    (by decide) (by decide) rfl
